import Mathlib

/-!
Verification development for the TOEFL study-coach application
(`toefl_chatbot_app.py`).  The core logic (score bucketing, plan
templates, plan generation, the self-test runner and the feedback
recorder) is embedded shallowly below; theorems about the claims of the
specification follow the definitions.

The source file on disk contains mojibake (UTF-8 text that was decoded
as a single-byte codepage and re-encoded), e.g. the en dash in the
Reading adjustment appears as the three characters U+00E2 U+20AC U+201C
and the emoji in headers appear as multi-character sequences.  The
embedding reproduces those exact character sequences with `\u` escapes,
because they are what the program actually outputs.
-/

namespace Toefl

/-! ## Modelled Python builtins -/

/-- Modelled from the Python builtin `str.strip` / the whitespace stripping
performed by `int(...)`: drop whitespace characters from both ends of a
character list.  (Python strips all Unicode whitespace; this model covers
the ASCII whitespace recognised by `Char.isWhitespace`, which is what the
program's inputs exercise.) -/
def stripChars (cs : List Char) : List Char :=
  ((cs.dropWhile Char.isWhitespace).reverse.dropWhile Char.isWhitespace).reverse

/-- Numeric value of an ASCII digit character. -/
def digVal (c : Char) : Nat := c.toNat - 48

/-- Fold a most-significant-first list of digit characters into a number. -/
def digitsFold (acc : Nat) : List Char → Nat
  | [] => acc
  | c :: cs => digitsFold (10 * acc + digVal c) cs

/-- Digit-and-underscore tail of a Python integer literal: after the first
digit, Python's `int` accepts further digits, with single underscores
allowed only between two digits. -/
def parseNatTail (acc : Nat) : List Char → Option Nat
  | [] => some acc
  | c :: cs =>
    if c.isDigit then parseNatTail (10 * acc + digVal c) cs
    else if c = '_' then
      match cs with
      | c2 :: cs2 => if c2.isDigit then parseNatTail (10 * acc + digVal c2) cs2 else none
      | [] => none
    else none

/-- Unsigned digit-string parser used by the model of Python `int`:
requires a leading digit, then digits with optional single interior
underscores. -/
def parseNatChars : List Char → Option Nat
  | [] => none
  | c :: cs => if c.isDigit then parseNatTail (digVal c) cs else none

/-- Sign handling of the model of Python `int`: an optional single
leading `+` or `-` before the digit string. -/
def pyIntCore : List Char → Option Int
  | [] => none
  | c :: rest =>
    if c = '+' then (parseNatChars rest).map (fun n : Nat => (n : Int))
    else if c = '-' then (parseNatChars rest).map (fun n : Nat => -(n : Int))
    else (parseNatChars (c :: rest)).map (fun n : Nat => (n : Int))

/-- Modelled from the Python builtin `int(s)` for `str` arguments:
surrounding whitespace is stripped, an optional single leading `+` or `-`
sign is allowed, and the rest must be a nonempty base-10 digit string
(underscores permitted between digits).  `none` models the `ValueError`
raised on malformed input.  (Non-ASCII digit characters accepted by
CPython are outside this model.) -/
def pyInt (s : String) : Option Int := pyIntCore (stripChars s.data)

/-- Little-endian base-10 digits of `n`, computed with explicit fuel so
that the definition is structurally recursive (and hence evaluable by the
kernel).  `natDigitsLE` below instantiates the fuel. -/
def natDigitsRev (fuel : Nat) (n : Nat) : List Nat :=
  match fuel with
  | 0 => []
  | fuel + 1 => if n = 0 then [] else (n % 10) :: natDigitsRev fuel (n / 10)

/-- Little-endian base-10 digits of `n`. -/
def natDigitsLE (n : Nat) : List Nat := natDigitsRev n n

/-- Modelled from the Python builtin `str(n)` for a nonnegative integer:
most-significant-first decimal digits, with `"0"` for zero. -/
def natRepr (n : Nat) : String :=
  if n = 0 then "0" else String.mk (((natDigitsLE n).map Nat.digitChar).reverse)

/-- Modelled from the Python builtin `str(i)` for an `int`: decimal
digits, preceded by `-` when negative. -/
def pyStr (i : Int) : String :=
  if i < 0 then "-" ++ natRepr i.natAbs else natRepr i.toNat

/-- Modelled from the Python builtin `sep.join(items)`. -/
def pyJoin (sep : String) : List String → String
  | [] => ""
  | [x] => x
  | x :: xs => x ++ sep ++ pyJoin sep xs

/-- Boolean test that `p` is an initial segment of `l`. -/
def isPre : List Char → List Char → Bool
  | [], _ => true
  | _ :: _, [] => false
  | a :: as, b :: bs => a == b && isPre as bs

/-- Boolean test that `n` occurs contiguously inside `h`. -/
def isSub (n : List Char) : List Char → Bool
  | [] => isPre n []
  | c :: t => isPre n (c :: t) || isSub n t

/-- Modelled from the Python operator `needle in hay` on strings. -/
def strContains (hay needle : String) : Bool := isSub needle.data hay.data

/-- Modelled from the Python method `hay.startswith(p)`. -/
def strStartsWith (hay p : String) : Bool := isPre p.data hay.data

/-- Modelled from the Python method `hay.endswith(p)`. -/
def strEndsWith (hay p : String) : Bool := isPre p.data.reverse hay.data.reverse

/-- Split a character list at every occurrence of `c` (the resulting list
is nonempty and does not contain `c` in any piece). -/
def splitOnChar (c : Char) : List Char → List (List Char)
  | [] => [[]]
  | x :: xs =>
    match splitOnChar c xs with
    | [] => [[]]
    | r :: rs => if x = c then [] :: r :: rs else (x :: r) :: rs

/-- The lines of a text block (split at newline characters). -/
def linesOf (s : String) : List String :=
  (splitOnChar '\n' s.data).map String.mk

/-! ## Core logic (`toefl_chatbot_app.py`) -/

/-- Map score to discrete personalization buckets (`_bucket`). -/
def _bucket (score : Int) : String :=
  if score ≥ 100 then "100+"
  else if score ≥ 90 then "90-99"
  else if score ≥ 80 then "80-89"
  else "<80"

/-- The `weekly_focus` dictionary of `_plan_by_bucket`, as an association
list in source order. -/
def weekly_focus : List (String × List String) :=
  [("100+",
    ["Full-length mock tests (timed) 2x/week",
     "Speaking drills with recording & self-review",
     "Advanced academic vocabulary consolidation",
     "Refine Writing Task 1/2 structures under time"]),
   ("90-99",
    ["Targeted Reading strategy practice (skimming/scanning)",
     "Daily Speaking prompts with 60-sec responses",
     "Listening note-taking for lectures & conversations",
     "Writing with clear thesis + example paragraphs"]),
   ("80-89",
    ["Grammar refreshers on common TOEFL errors",
     "Reading: paragraph main idea & inference practice",
     "Listening: short dialogues & key-point capture",
     "Speaking: 3-sentence structured responses"]),
   ("<80",
    ["Understand TOEFL format & scoring basics",
     "Foundation vocabulary (15/day) with spaced review",
     "Short listening clips with transcript support",
     "Simple paragraph writing & feedback checklist"])]

/-- The `daily_templates` dictionary of `_plan_by_bucket`, as an
association list in source order.  The `90-99` mock entry reproduces the
source's mojibake en dash (`â€“`). -/
def daily_templates : List (String × List String) :=
  [("100+",
    ["Reading: 1 long passage (timed) + error log",
     "Listening: 1 lecture + 1 conversation (timed)",
     "Speaking: 2 prompts (record, self-critique)",
     "Writing: Task 2 essay (25 min) outline + body",
     "Vocabulary: 20 academic words + retrieval practice",
     "Mock: mini test (Reading+Listening) (timed)",
     "Review: wrong answers & patterns; light speaking"]),
   ("90-99",
    ["Reading: main idea & inference (1 passage)",
     "Listening: note-taking practice (1 lecture)",
     "Speaking: 1 independent prompt (record)",
     "Writing: intro+thesis+1 example paragraph",
     "Vocabulary: 15 words; quiz yourself",
     "Mock: section mix (30\u00E2\u20AC\u201C45 min)",
     "Review & plan next week"]),
   ("80-89",
    ["Grammar set: tenses, subject-verb agreement",
     "Reading: 1 short passage (slow + annotate)",
     "Listening: 1 short convo (pause & repeat)",
     "Speaking: 3-sentence prompt (intro-reason-example)",
     "Writing: short paragraph (topic, support, concluding)",
     "Vocabulary: 12 words; flashcards",
     "Weekly review: error list update"]),
   ("<80",
    ["Learn test sections & timing basics",
     "Vocabulary: 15 everyday words + examples",
     "Listening: short clip + read transcript",
     "Reading: 1 short text; underline keywords",
     "Speaking: describe a picture (30s)",
     "Writing: 5-sentence paragraph (topic/support)",
     "Review & light mock (un-timed)"])]

/-- The record returned by `_plan_by_bucket`. -/
structure PlanTemplate where
  weekly_focus : List String
  daily : List String
deriving DecidableEq

/-- Return a weekly plan template and daily tasks based on score bucket
(`_plan_by_bucket`).  The Python function indexes two dictionaries; a
missing key would raise `KeyError`, modelled by `none`. -/
def _plan_by_bucket (bucket : String) : Option PlanTemplate :=
  match weekly_focus.lookup bucket, daily_templates.lookup bucket with
  | some wf, some dl => some ⟨wf, dl⟩
  | _, _ => none

/-- The `adjustments` dictionary of `generate_plan`, in source order.  The
Reading entry reproduces the source's mojibake en dash. -/
def adjustments : List (String × String) :=
  [("Balanced", ""),
   ("Reading", " Emphasize Reading tasks; add 5\u00E2\u20AC\u201C10 extra minutes to reading activities."),
   ("Listening", " Emphasize Listening tasks; repeat audio segments once for deeper note-taking."),
   ("Speaking", " Emphasize Speaking tasks; add one extra speaking prompt on Days 3 & 7."),
   ("Writing", " Emphasize Writing tasks; add a 10-minute outline drill on Days 4 & 5."),
   ("Vocabulary", " Emphasize Vocabulary; add spaced-recall mini-quizzes daily.")]

/-- The mojibake form of the `\u{1F3AF}` target emoji that opens the
target-score header line in the source. -/
def targetEmoji : String := "\u00F0\u0178\u017D\u00AF"

/-- The mojibake form of the compass emoji that opens the focus header
line in the source. -/
def focusEmoji : String := "\u00F0\u0178\u00A7\u00AD"

/-- The weekly-focus header line of the plan (with its mojibake calendar
emoji). -/
def weeklyFocusHeader : String := "\u00F0\u0178\u201C\u2026 Weekly Focus:"

/-- The section label line of the daily plan (with its mojibake emoji). -/
def planLabel : String := "\u00F0\u0178\u2014\u201C\u00EF\u00B8 7-Day Plan:"

/-- The guidance string returned on a score that fails to parse. -/
def guidance : String := "Please enter your target score as a number (e.g., 90)."

/-- The day-rendering loop of `generate_plan`
(`for idx, task in enumerate(plan["daily"], start=1)`): each task becomes
`"Day {idx}: {task}{tweak}"`. -/
def renderDays (tweak : String) (idx : Nat) : List String → List String
  | [] => []
  | task :: rest =>
    (("Day " ++ natRepr idx ++ ": ") ++ (task ++ tweak)) :: renderDays tweak (idx + 1) rest

/-- Generate a personalized 7-day plan based on target score and optional
focus area (`generate_plan`).  In Python `focus_area` defaults to
`"Balanced"`; callers of this model pass the focus explicitly.  `none`
models an uncaught exception (the `int` failure is caught and mapped to
the guidance string, so `none` could only arise from a `KeyError` in
`_plan_by_bucket`). -/
def generate_plan (score_input : String) (focus_area : String) : Option String :=
  match pyInt score_input with
  | none => some guidance
  | some score =>
    match _plan_by_bucket (_bucket score) with
    | none => none
    | some plan =>
      let b := _bucket score
      let tweak := (adjustments.lookup focus_area).getD ""
      let header := [(targetEmoji ++ " Target Score: " ++ pyStr score) ++ ("  (Bucket: " ++ (b ++ ")")),
                     (focusEmoji ++ " Focus: ") ++ focus_area,
                     weeklyFocusHeader]
      let weekly_lines := plan.weekly_focus.map (fun item => "- " ++ item)
      let days := renderDays tweak 1 plan.daily
      some (pyJoin "\n" (header ++ weekly_lines ++ [""] ++ [planLabel] ++ days))

/-! ## Success criteria self-tests (`run_self_tests`) -/

/-- PASS/FAIL text of a check (`{'PASS' if ok else 'FAIL'}`). -/
def passFail (ok : Bool) : String := if ok then "PASS" else "FAIL"

/-- One iteration of the `run_self_tests` functionality loop: generate a
plan for the score and test it for the two required substrings, yielding
the log line and the check result. -/
def functionalityCheck (s : Int) : Option (String × Bool) :=
  match generate_plan (pyStr s) "Balanced" with
  | none => none
  | some txt =>
    let ok := strContains txt "7-Day Plan" && strContains txt "Target Score"
    some ("[Functionality] score=" ++ pyStr s ++ ": " ++ passFail ok, ok)

/-- The mojibake form of the white-check-mark suffix on the passing
summary line of `run_self_tests`. -/
def passMark : String := "âœ…"

/-- The mojibake form of the warning-sign suffix on the failing summary
line of `run_self_tests`. -/
def warnMark : String := "âš ï¸"

/-- Run simple checks that correspond to success criteria
(`run_self_tests`): functionality over four scores, personalization,
robustness, consistency and usability, each logging a PASS/FAIL line,
with an overall summary line first.  The Python loop over
`[75, 85, 92, 104]` is unrolled; `none` models an uncaught exception in
one of the `generate_plan` calls. -/
def run_self_tests : Option String :=
  match functionalityCheck 75, functionalityCheck 85,
        functionalityCheck 92, functionalityCheck 104 with
  | some f75, some f85, some f92, some f104 =>
    match generate_plan "82" "Balanced", generate_plan "95" "Balanced",
          generate_plan "105" "Balanced" with
    | some a, some b, some c =>
      let pers_ok := strContains a "Bucket: 80-89" && strContains b "Bucket: 90-99" &&
                     strContains c "Bucket: 100+"
      match generate_plan "ninety" "Balanced" with
      | none => none
      | some r =>
        let robust_ok := strContains r "Please enter your target score as a number"
        match generate_plan "90" "Balanced" with
        | none => none
        | some sample =>
          let days_ok := (List.range' 1 7).all
            (fun i => strContains sample ("Day " ++ natRepr i ++ ":"))
          let head_ok := strContains sample "Weekly Focus:" &&
                         strContains sample "Target Score" && strContains sample "Focus:"
          let logs := [f75.1, f85.1, f92.1, f104.1,
            "[Personalization] different buckets detected: " ++ passFail pers_ok,
            "[Robustness] non-numeric input message: " ++ passFail robust_ok,
            "[Consistency] 7 days present: " ++ passFail days_ok,
            "[Usability] headers included: " ++ passFail head_ok]
          let passed := f75.2 && f85.2 && f92.2 && f104.2 && pers_ok && robust_ok &&
                        days_ok && head_ok
          let summary := if passed then "OVERALL: PASS " ++ passMark
                         else "OVERALL: CHECK NEEDED " ++ warnMark
          some (summary ++ "\n" ++ pyJoin "\n" logs)
    | _, _, _ => none
  | _, _, _, _ => none

/-! ## Feedback logging (`save_feedback`) -/

/-- A naive wall-clock timestamp, as produced by `datetime.now()`.  The
clock itself is external to the program; the record passed in stands for
the value the clock returned at the moment of the call. -/
structure PyDateTime where
  year : Nat
  month : Nat
  day : Nat
  hour : Nat
  minute : Nat
  second : Nat
deriving DecidableEq

/-- Field ranges guaranteed by Python's `datetime` for any value
`datetime.now()` can return. -/
def PyDateTime.valid (d : PyDateTime) : Prop :=
  1 ≤ d.year ∧ d.year ≤ 9999 ∧ 1 ≤ d.month ∧ d.month ≤ 12 ∧ 1 ≤ d.day ∧ d.day ≤ 31 ∧
  d.hour ≤ 23 ∧ d.minute ≤ 59 ∧ d.second ≤ 59

/-- Zero-pad a number to (at least) two digits, as Python's `%02d`. -/
def pad2 (n : Nat) : String := if n < 10 then "0" ++ natRepr n else natRepr n

/-- Zero-pad a number to (at least) four digits, as Python's `%04d`. -/
def pad4 (n : Nat) : String :=
  if n < 10 then "000" ++ natRepr n
  else if n < 100 then "00" ++ natRepr n
  else if n < 1000 then "0" ++ natRepr n
  else natRepr n

/-- Modelled from the Python call
`datetime.isoformat(timespec="seconds")` on a naive datetime:
`YYYY-MM-DDTHH:MM:SS`. -/
def isoformatSeconds (d : PyDateTime) : String :=
  pad4 d.year ++ "-" ++ pad2 d.month ++ "-" ++ pad2 d.day ++ "T" ++
  pad2 d.hour ++ ":" ++ pad2 d.minute ++ ":" ++ pad2 d.second

/-- Shape test for a second-precision ISO-8601 timestamp
(`YYYY-MM-DDTHH:MM:SS`). -/
def isIso8601Seconds (s : String) : Bool :=
  match s.data with
  | [y1, y2, y3, y4, '-', m1, m2, '-', d1, d2, 'T', h1, h2, ':', n1, n2, ':', s1, s2] =>
    [y1, y2, y3, y4, m1, m2, d1, d2, h1, h2, n1, n2, s1, s2].all Char.isDigit
  | _ => false

/-- The fixed relative path of the feedback log (`FEEDBACK_PATH`). -/
def FEEDBACK_PATH : String := "feedback.csv"

/-- The header row pandas writes for the feedback frame's columns. -/
def feedbackHeader : String :=
  "timestamp,target_score_input,helpful_rating_1to5,clarity_rating_1to5,comments"

/-- Modelled from pandas' minimal CSV quoting: a cell is wrapped in
double quotes (with interior quotes doubled) exactly when it contains a
comma, a quote or a line break. -/
def csvCell (s : String) : String :=
  if s.data.any (fun ch => ch == ',' || ch == '"' || ch == '\n' || ch == '\r') then
    "\"" ++ String.mk (s.data.flatMap (fun ch => if ch == '"' then ['"', '"'] else [ch])) ++ "\""
  else s

/-- One CSV data row (comma-separated cells, newline-terminated), as
pandas `to_csv` emits with `index=False` on this platform. -/
def csvRow (cells : List String) : String := pyJoin "," (cells.map csvCell) ++ "\n"

/-- The contents of the feedback file: `none` when the file does not
exist. -/
abbrev FeedbackFile := Option String

/-- The five cells of the feedback row built by `save_feedback`, in
source column order: timestamp, raw score text, the two ratings, and
whitespace-stripped comments. -/
def feedbackCells (now : PyDateTime) (score : String) (helpful clarity : Int)
    (comments : String) : List String :=
  [isoformatSeconds now, score, pyStr helpful, pyStr clarity,
   String.mk (stripChars comments.data)]

/-- Append user feedback to CSV (`save_feedback`).  The wall clock and
the feedback file are the function's only contact with the outside
world; both are passed explicitly: `now` is the value `datetime.now()`
returned, `file` the current contents of `FEEDBACK_PATH`.  Returns the
new file contents and the confirmation string. -/
def save_feedback (now : PyDateTime) (score : String) (helpful clarity : Int)
    (comments : String) (file : FeedbackFile) : FeedbackFile × String :=
  let row := csvRow (feedbackCells now score helpful clarity comments)
  match file with
  | some content => (some (content ++ row), "Thanks! Your feedback was saved.")
  | none => (some (feedbackHeader ++ "\n" ++ row), "Thanks! Your feedback was saved.")

/-! ## Auxiliary notions used by the claims -/

/-- The tier index of a bucket label in the order
`<80` < `80-89` < `90-99` < `100+`. -/
def tierIdx (b : String) : Nat :=
  if b = "<80" then 0 else if b = "80-89" then 1 else if b = "90-99" then 2 else 3

/-- The seven `Day N: ` line markers, for N = 1..7. -/
def dayMarkers : List String :=
  (List.range' 1 7).map (fun n => "Day " ++ natRepr n ++ ": ")

/-- A line that begins with one of the seven `Day N: ` markers. -/
def isDayLine (l : String) : Bool := dayMarkers.any (fun p => strStartsWith l p)

/-- Test that the next `count` lines begin with `Day i: `, `Day i+1: `,
and so on, in increasing order. -/
def daysFrom : Nat → Nat → List String → Bool
  | 0, _, _ => true
  | count + 1, i, ls =>
    match ls with
    | [] => false
    | l :: t => strStartsWith l ("Day " ++ natRepr i ++ ": ") && daysFrom count (i + 1) t

/-- Test that some line carries the `7-Day Plan` label and is immediately
followed by seven lines beginning `Day 1: ` through `Day 7: ` in order. -/
def hasLabelBlock : List String → Bool
  | [] => false
  | l :: rest => (strContains l "7-Day Plan" && daysFrom 7 1 rest) || hasLabelBlock rest

/-- Decidable statement of claim C3 about a plan text: somewhere in the
text there is a line carrying the `7-Day Plan` label whose next seven
lines begin with `Day 1: ` through `Day 7: ` in order, and those are the
only lines of the text beginning with a `Day N: ` marker. -/
def dayStructureOk (out : String) : Bool :=
  hasLabelBlock (linesOf out) && (linesOf out).countP isDayLine == 7

/-- The state of the world outside the plan generator: the feedback file
and the wall clock.  `generate_plan` neither reads nor writes it. -/
structure World where
  feedback_file : FeedbackFile
  clock : PyDateTime

/-- The plan-generation entry point as the surrounding application calls
it: a request against a world state.  The Python function body touches
no global state, so the embedding returns the world unchanged and a
result that depends only on the arguments. -/
def generate_plan_app (w : World) (score_input focus_area : String) :
    World × Option String :=
  (w, generate_plan score_input focus_area)

/-- No character of the string is a newline. -/
def nlFree (s : String) : Bool := s.data.all (fun a => !(a == '\n'))

/-! ## Substring and line lemmas -/

theorem isPre_self_append (p t : List Char) : isPre p (p ++ t) = true := by
  induction p with
  | nil => rfl
  | cons a as ih => simp [isPre, ih]

theorem isPre_exists {p l : List Char} (h : isPre p l = true) : ∃ t, l = p ++ t := by
  induction p generalizing l with
  | nil => exact ⟨l, rfl⟩
  | cons a as ih =>
    cases l with
    | nil => simp [isPre] at h
    | cons b bs =>
      simp only [isPre, Bool.and_eq_true, beq_iff_eq] at h
      obtain ⟨t, ht⟩ := ih h.2
      exact ⟨t, by simp [h.1, ht]⟩

theorem isPre_cons_false {a b : Char} {p l : List Char} (h : a ≠ b) :
    isPre (a :: p) (b :: l) = false := by
  simp only [isPre, Bool.and_eq_false_iff]
  exact Or.inl (beq_eq_false_iff_ne.mpr h)

theorem isSub_of_isPre {n h : List Char} (hp : isPre n h = true) : isSub n h = true := by
  cases h with
  | nil => simpa [isSub] using hp
  | cons c t => simp [isSub, hp]

theorem isSub_append_left {n h : List Char} (x : List Char) (hs : isSub n h = true) :
    isSub n (x ++ h) = true := by
  induction x with
  | nil => simpa using hs
  | cons c cs ih => simp [isSub, ih]

theorem isPre_append_right {p h : List Char} (y : List Char) (hp : isPre p h = true) :
    isPre p (h ++ y) = true := by
  obtain ⟨t, ht⟩ := isPre_exists hp
  subst ht
  rw [List.append_assoc]
  exact isPre_self_append p (t ++ y)

theorem isSub_append_right {n h : List Char} (y : List Char) (hs : isSub n h = true) :
    isSub n (h ++ y) = true := by
  induction h with
  | nil =>
    simp only [isSub] at hs
    exact isSub_of_isPre (isPre_append_right y hs)
  | cons c t ih =>
    simp only [isSub, Bool.or_eq_true] at hs
    rcases hs with hp | hrest
    · exact isSub_of_isPre (isPre_append_right y hp)
    · have := ih hrest
      simp [isSub, this]

theorem isSub_exists {n h : List Char} (hs : isSub n h = true) :
    ∃ s t, h = s ++ n ++ t := by
  induction h with
  | nil =>
    simp only [isSub] at hs
    obtain ⟨t, ht⟩ := isPre_exists hs
    exact ⟨[], t, ht⟩
  | cons c tl ih =>
    simp only [isSub, Bool.or_eq_true] at hs
    rcases hs with hp | hrest
    · obtain ⟨t, ht⟩ := isPre_exists hp
      exact ⟨[], t, ht⟩
    · obtain ⟨s, t, hst⟩ := ih hrest
      exact ⟨c :: s, t, by simp [hst]⟩

theorem isSub_parts (n s t : List Char) : isSub n (s ++ n ++ t) = true := by
  have h1 : isSub n (n ++ t) = true := isSub_of_isPre (isPre_self_append n t)
  rw [List.append_assoc]
  exact isSub_append_left s h1

theorem strContains_of_parts {hay needle : String} (s t : List Char)
    (h : hay.data = s ++ needle.data ++ t) : strContains hay needle = true := by
  unfold strContains
  rw [h]
  exact isSub_parts needle.data s t

theorem strContains_trans_mem {hay part needle : String}
    (h1 : strContains part needle = true) (s t : List Char)
    (h2 : hay.data = s ++ part.data ++ t) : strContains hay needle = true := by
  obtain ⟨u, v, huv⟩ := isSub_exists h1
  refine strContains_of_parts (s ++ u) (v ++ t) ?_
  rw [h2, huv]
  simp [List.append_assoc]

/-! ## Lemmas about `pyJoin` and `linesOf` -/

theorem pyJoin_cons (sep : String) (x : String) (xs : List String) (h : xs ≠ []) :
    pyJoin sep (x :: xs) = x ++ sep ++ pyJoin sep xs := by
  cases xs with
  | nil => exact absurd rfl h
  | cons y ys => rfl

theorem mem_pyJoin_parts (sep : String) {l : String} {L : List String} (hl : l ∈ L) :
    ∃ s t, (pyJoin sep L).data = s ++ l.data ++ t := by
  induction L with
  | nil => cases hl
  | cons x xs ih =>
    rcases List.mem_cons.mp hl with rfl | hmem
    · cases xs with
      | nil => exact ⟨[], [], by simp [pyJoin]⟩
      | cons y ys =>
        refine ⟨[], (sep ++ pyJoin sep (y :: ys)).data, ?_⟩
        simp [pyJoin_cons sep l (y :: ys) (by simp), String.data_append, List.append_assoc]
    · have hne : xs ≠ [] := by intro hx; rw [hx] at hmem; cases hmem
      obtain ⟨s, t, hst⟩ := ih hmem
      refine ⟨(x ++ sep).data ++ s, t, ?_⟩
      rw [pyJoin_cons sep x xs hne]
      simp [String.data_append, hst, List.append_assoc]

theorem strContains_pyJoin_of_mem (sep : String) {l needle : String} {L : List String}
    (hl : l ∈ L) (hn : strContains l needle = true) :
    strContains (pyJoin sep L) needle = true := by
  obtain ⟨s, t, hst⟩ := mem_pyJoin_parts sep hl
  exact strContains_trans_mem hn s t hst

theorem splitOnChar_cons (c x : Char) (xs : List Char) :
    splitOnChar c (x :: xs) =
      match splitOnChar c xs with
      | [] => [[]]
      | r :: rs => if x = c then [] :: r :: rs else (x :: r) :: rs := rfl

theorem splitOnChar_ne_nil (c : Char) (l : List Char) : splitOnChar c l ≠ [] := by
  cases l with
  | nil => simp [splitOnChar]
  | cons x xs =>
    simp only [splitOnChar]
    match splitOnChar c xs with
    | [] => simp
    | r :: rs =>
      by_cases hx : x = c
      · simp [hx]
      · simp [hx]

theorem splitOnChar_no_occ {c : Char} {l : List Char} (h : ∀ a ∈ l, a ≠ c) :
    splitOnChar c l = [l] := by
  induction l with
  | nil => rfl
  | cons x xs ih =>
    have hx : x ≠ c := h x (by simp)
    have hrec := ih (fun a ha => h a (by simp [ha]))
    simp [splitOnChar, hrec, hx]

theorem splitOnChar_append_cons {c : Char} {x : List Char} (rest : List Char)
    (h : ∀ a ∈ x, a ≠ c) :
    splitOnChar c (x ++ c :: rest) = x :: splitOnChar c rest := by
  induction x with
  | nil =>
    simp only [List.nil_append, splitOnChar]
    have hne := splitOnChar_ne_nil c rest
    match hrec : splitOnChar c rest with
    | [] => exact absurd hrec hne
    | r :: rs => simp
  | cons a as ih =>
    have ha : a ≠ c := h a (by simp)
    have hrec := ih (fun b hb => h b (by simp [hb]))
    rw [List.cons_append, splitOnChar_cons, hrec]
    simp [ha]

theorem nlFree_mem {s : String} (h : nlFree s = true) : ∀ a ∈ s.data, a ≠ '\n' := by
  intro a ha
  have := (List.all_eq_true.mp h) a ha
  simpa using this

theorem nlFree_append {a b : String} (ha : nlFree a = true) (hb : nlFree b = true) :
    nlFree (a ++ b) = true := by
  unfold nlFree at *
  rw [String.data_append, List.all_append, ha, hb]
  rfl

/-! ## Digit, `natRepr` and `pyInt` lemmas -/

theorem digitsFold_cons (acc : Nat) (c : Char) (cs : List Char) :
    digitsFold acc (c :: cs) = digitsFold (10 * acc + digVal c) cs := rfl

theorem parseNatChars_cons (c : Char) (cs : List Char) :
    parseNatChars (c :: cs) = if c.isDigit then parseNatTail (digVal c) cs else none := rfl

theorem pyIntCore_cons (c : Char) (rest : List Char) :
    pyIntCore (c :: rest) =
      (if c = '+' then (parseNatChars rest).map (fun n : Nat => (n : Int))
       else if c = '-' then (parseNatChars rest).map (fun n : Nat => -(n : Int))
       else (parseNatChars (c :: rest)).map (fun n : Nat => (n : Int))) := rfl

theorem natDigitsRev_eq_digits : ∀ fuel n, n ≤ fuel → natDigitsRev fuel n = Nat.digits 10 n := by
  intro fuel
  induction fuel with
  | zero =>
    intro n hn
    interval_cases n
    rw [Nat.digits_zero]
    rfl
  | succ f ih =>
    intro n hn
    by_cases h0 : n = 0
    · subst h0
      rw [Nat.digits_zero]
      show (if 0 = 0 then [] else _) = ([] : List Nat)
      rw [if_pos rfl]
    · have hpos : 0 < n := Nat.pos_of_ne_zero h0
      show (if n = 0 then [] else (n % 10) :: natDigitsRev f (n / 10)) = _
      rw [if_neg h0, Nat.digits_def' (by norm_num : (1:Nat) < 10) hpos]
      have hlt : n / 10 < n := Nat.div_lt_self hpos (by norm_num)
      rw [ih (n / 10) (by omega)]

theorem natDigitsLE_eq (n : Nat) : natDigitsLE n = Nat.digits 10 n :=
  natDigitsRev_eq_digits n n le_rfl

theorem digitChar_isDigit {d : Nat} (h : d < 10) : (Nat.digitChar d).isDigit = true := by
  interval_cases d <;> decide

theorem digVal_digitChar {d : Nat} (h : d < 10) : digVal (Nat.digitChar d) = d := by
  interval_cases d <;> decide

theorem isDigit_ne {c x : Char} (h : c.isDigit = true) (hx : x.isDigit = false) : c ≠ x := by
  intro he
  rw [he, hx] at h
  cases h

theorem isDigit_not_ws {c : Char} (h : c.isDigit = true) : c.isWhitespace = false := by
  by_contra hw
  have hw' : c.isWhitespace = true := by revert hw; cases hcw : c.isWhitespace <;> simp
  simp [Char.isWhitespace] at hw'
  rcases hw' with ((rfl | rfl) | rfl) | rfl <;> simp [Char.isDigit] at h

theorem digitsFold_map_digitChar :
    ∀ (M : List Nat), (∀ d ∈ M, d < 10) →
      ∀ acc, digitsFold acc (M.map Nat.digitChar) = M.foldl (fun a d => 10 * a + d) acc := by
  intro M
  induction M with
  | nil => intro _ acc; rfl
  | cons d T ih =>
    intro hM acc
    have hd : d < 10 := hM d (by simp)
    rw [List.map_cons, digitsFold_cons, List.foldl_cons, digVal_digitChar hd]
    exact ih (fun x hx => hM x (by simp [hx])) _

theorem foldl_reverse_ofDigits :
    ∀ (M : List Nat) (acc : Nat),
      M.reverse.foldl (fun a d => 10 * a + d) acc = acc * 10 ^ M.length + Nat.ofDigits 10 M := by
  intro M
  induction M with
  | nil => intro acc; simp [Nat.ofDigits]
  | cons d T ih =>
    intro acc
    rw [List.reverse_cons, List.foldl_append, ih]
    simp only [List.foldl_cons, List.foldl_nil, Nat.ofDigits_cons, List.length_cons,
      Nat.cast_id]
    ring

theorem parseNatTail_cons_digit (acc : Nat) {c : Char} (cs : List Char)
    (hc : c.isDigit = true) :
    parseNatTail acc (c :: cs) = parseNatTail (10 * acc + digVal c) cs := by
  conv_lhs => unfold parseNatTail
  rw [if_pos hc]

theorem parseNatTail_digits :
    ∀ (cs : List Char), (∀ c ∈ cs, c.isDigit = true) →
      ∀ acc, parseNatTail acc cs = some (digitsFold acc cs) := by
  intro cs
  induction cs with
  | nil => intro _ acc; rfl
  | cons c cs ih =>
    intro h acc
    have hc := h c (by simp)
    rw [parseNatTail_cons_digit acc cs hc, digitsFold_cons]
    exact ih (fun x hx => h x (by simp [hx])) _

theorem parseNatChars_digits {c : Char} {cs : List Char} (hc : c.isDigit = true)
    (hcs : ∀ x ∈ cs, x.isDigit = true) :
    parseNatChars (c :: cs) = some (digitsFold 0 (c :: cs)) := by
  rw [parseNatChars_cons, if_pos hc, parseNatTail_digits cs hcs, digitsFold_cons]
  norm_num

theorem natRepr_data {n : Nat} (h0 : n ≠ 0) :
    (natRepr n).data = ((Nat.digits 10 n).reverse).map Nat.digitChar := by
  unfold natRepr
  rw [if_neg h0]
  show ((natDigitsLE n).map Nat.digitChar).reverse = _
  rw [natDigitsLE_eq, List.map_reverse]

theorem natRepr_chars {n : Nat} : ∀ c ∈ (natRepr n).data, c.isDigit = true := by
  by_cases h0 : n = 0
  · subst h0
    intro c hc
    have hdata : (natRepr 0).data = ['0'] := rfl
    rw [hdata] at hc
    have : c = '0' := by simpa using hc
    subst this
    decide
  · rw [natRepr_data h0]
    intro c hc
    simp only [List.mem_map, List.mem_reverse] at hc
    obtain ⟨d, hd, rfl⟩ := hc
    exact digitChar_isDigit (Nat.digits_lt_base (by norm_num) hd)

theorem natRepr_ne_nil (n : Nat) : (natRepr n).data ≠ [] := by
  by_cases h0 : n = 0
  · subst h0
    have hdata : (natRepr 0).data = ['0'] := rfl
    rw [hdata]
    simp
  · rw [natRepr_data h0]
    have hnil : Nat.digits 10 n ≠ [] := Nat.digits_ne_nil_iff_ne_zero.mpr h0
    simp [hnil]

theorem parseNatChars_natRepr (n : Nat) : parseNatChars (natRepr n).data = some n := by
  by_cases h0 : n = 0
  · subst h0; decide
  · rw [natRepr_data h0]
    have hD : Nat.digits 10 n ≠ [] := Nat.digits_ne_nil_iff_ne_zero.mpr h0
    have hlt : ∀ d ∈ Nat.digits 10 n, d < 10 :=
      fun d hd => Nat.digits_lt_base (by norm_num) hd
    obtain ⟨d, M, hDM⟩ : ∃ d M, (Nat.digits 10 n).reverse = d :: M := by
      cases hr : (Nat.digits 10 n).reverse with
      | nil => exact absurd (List.reverse_eq_nil_iff.mp hr) hD
      | cons d M => exact ⟨d, M, rfl⟩
    have hdm : ∀ x ∈ d :: M, x < 10 := by
      rw [← hDM]
      intro x hx
      exact hlt x (List.mem_reverse.mp hx)
    rw [hDM]
    simp only [List.map_cons]
    rw [parseNatChars_digits (digitChar_isDigit (hdm d (by simp)))
      (by intro x hx
          simp only [List.mem_map] at hx
          obtain ⟨m, hm, rfl⟩ := hx
          exact digitChar_isDigit (hdm m (by simp [hm])))]
    have hmap : Nat.digitChar d :: M.map Nat.digitChar = (d :: M).map Nat.digitChar := rfl
    rw [hmap, digitsFold_map_digitChar (d :: M) hdm 0, ← hDM,
      foldl_reverse_ofDigits, Nat.ofDigits_digits]
    simp

theorem nlFree_iff (s : String) : nlFree s = true ↔ ∀ a ∈ s.data, a ≠ '\n' := by
  unfold nlFree
  rw [List.all_eq_true]
  constructor <;> intro h a ha <;> have := h a ha <;> simpa using this

theorem nlFree_natRepr (n : Nat) : nlFree (natRepr n) = true := by
  rw [nlFree_iff]
  intro a ha
  exact isDigit_ne (natRepr_chars a ha) (by decide)

theorem pyStr_nonneg {i : Int} (h : 0 ≤ i) : pyStr i = natRepr i.toNat := by
  unfold pyStr
  rw [if_neg (by omega)]

theorem pyStr_neg {i : Int} (h : i < 0) : pyStr i = "-" ++ natRepr i.natAbs := by
  unfold pyStr
  rw [if_pos h]

theorem pyStr_chars {i : Int} : ∀ c ∈ (pyStr i).data, c = '-' ∨ c.isDigit = true := by
  by_cases h : i < 0
  · rw [pyStr_neg h, String.data_append]
    intro c hc
    rcases List.mem_append.mp hc with h1 | h2
    · left; simpa using h1
    · right; exact natRepr_chars c h2
  · rw [pyStr_nonneg (by omega)]
    intro c hc
    right
    exact natRepr_chars c hc

theorem nlFree_pyStr (i : Int) : nlFree (pyStr i) = true := by
  rw [nlFree_iff]
  intro a ha
  rcases pyStr_chars a ha with rfl | hd
  · decide
  · exact isDigit_ne hd (by decide)

theorem dropWhile_eq_self {p : Char → Bool} {l : List Char} (h : ∀ a ∈ l, p a = false) :
    l.dropWhile p = l := by
  cases l with
  | nil => rfl
  | cons a as =>
    rw [List.dropWhile_cons, h a (by simp)]
    simp

theorem stripChars_eq_self {cs : List Char} (h : ∀ a ∈ cs, a.isWhitespace = false) :
    stripChars cs = cs := by
  unfold stripChars
  rw [dropWhile_eq_self h,
    dropWhile_eq_self (fun a ha => h a (List.mem_reverse.mp ha)),
    List.reverse_reverse]

theorem pyStr_not_ws {i : Int} : ∀ a ∈ (pyStr i).data, a.isWhitespace = false := by
  intro a ha
  rcases pyStr_chars a ha with rfl | hd
  · decide
  · exact isDigit_not_ws hd

theorem pyInt_pyStr (i : Int) : pyInt (pyStr i) = some i := by
  unfold pyInt
  rw [stripChars_eq_self pyStr_not_ws]
  by_cases hneg : i < 0
  · rw [pyStr_neg hneg, String.data_append]
    have hd : ("-" : String).data = ['-'] := rfl
    rw [hd, List.singleton_append, pyIntCore_cons,
      if_neg (by decide : ¬ ('-' : Char) = '+'), if_pos rfl, parseNatChars_natRepr]
    simp only [Option.map_some']
    congr 1
    omega
  · rw [pyStr_nonneg (by omega)]
    obtain ⟨c, rest, hcr⟩ : ∃ c rest, (natRepr i.toNat).data = c :: rest := by
      cases hx : (natRepr i.toNat).data with
      | nil => exact absurd hx (natRepr_ne_nil _)
      | cons c r => exact ⟨c, r, rfl⟩
    have hc : c.isDigit = true := natRepr_chars c (by rw [hcr]; simp)
    rw [hcr, pyIntCore_cons, if_neg (isDigit_ne hc (by decide)),
      if_neg (isDigit_ne hc (by decide)), ← hcr, parseNatChars_natRepr]
    simp only [Option.map_some']
    congr 1
    omega

theorem linesOf_pyJoin {L : List String} (hne : L ≠ [])
    (h : ∀ l ∈ L, nlFree l = true) : linesOf (pyJoin "\n" L) = L := by
  induction L with
  | nil => exact absurd rfl hne
  | cons x xs ih =>
    cases xs with
    | nil =>
      have hx := nlFree_mem (h x (by simp))
      simp [pyJoin, linesOf, splitOnChar_no_occ hx]
    | cons y ys =>
      have hx := nlFree_mem (h x (by simp))
      have hrec := ih (by simp) (fun l hl => h l (by simp [hl]))
      rw [pyJoin_cons "\n" x (y :: ys) (by simp)]
      unfold linesOf at *
      rw [String.data_append, String.data_append]
      have hnl : ("\n" : String).data = ['\n'] := rfl
      rw [hnl, List.append_assoc]
      rw [List.singleton_append]
      rw [splitOnChar_append_cons _ hx]
      simp only [List.map_cons]
      rw [hrec]

/-! ## Facts about the bucket, the tables and `generate_plan` -/

theorem bucket_of_ge_100 {s : Int} (h : 100 ≤ s) : _bucket s = "100+" := by
  unfold _bucket
  rw [if_pos h]

theorem bucket_of_90_99 {s : Int} (h1 : 90 ≤ s) (h2 : s ≤ 99) : _bucket s = "90-99" := by
  unfold _bucket
  rw [if_neg (by omega : ¬ s ≥ 100), if_pos h1]

theorem bucket_of_80_89 {s : Int} (h1 : 80 ≤ s) (h2 : s ≤ 89) : _bucket s = "80-89" := by
  unfold _bucket
  rw [if_neg (by omega : ¬ s ≥ 100), if_neg (by omega : ¬ s ≥ 90), if_pos h1]

theorem bucket_of_lt_80 {s : Int} (h : s < 80) : _bucket s = "<80" := by
  unfold _bucket
  rw [if_neg (by omega : ¬ s ≥ 100), if_neg (by omega : ¬ s ≥ 90),
    if_neg (by omega : ¬ s ≥ 80)]

theorem bucket_cases (score : Int) :
    _bucket score = "100+" ∨ _bucket score = "90-99" ∨ _bucket score = "80-89" ∨
      _bucket score = "<80" := by
  by_cases h1 : 100 ≤ score
  · exact Or.inl (bucket_of_ge_100 h1)
  · by_cases h2 : 90 ≤ score
    · exact Or.inr (Or.inl (bucket_of_90_99 h2 (by omega)))
    · by_cases h3 : 80 ≤ score
      · exact Or.inr (Or.inr (Or.inl (bucket_of_80_89 h3 (by omega))))
      · exact Or.inr (Or.inr (Or.inr (bucket_of_lt_80 (by omega))))

theorem plan_by_bucket_facts (score : Int) :
    ∃ tpl, _plan_by_bucket (_bucket score) = some tpl ∧
      tpl.weekly_focus.length = 4 ∧ tpl.daily.length = 7 ∧
      (∀ x ∈ tpl.weekly_focus, nlFree x = true) ∧ (∀ x ∈ tpl.daily, nlFree x = true) := by
  rcases bucket_cases score with hb | hb | hb | hb <;> rw [hb] <;>
    exact ⟨_, rfl, by decide, by decide, by decide, by decide⟩

theorem lookup_getD_mem (al : List (String × String)) (k d : String) :
    (al.lookup k).getD d ∈ d :: al.map Prod.snd := by
  induction al with
  | nil => simp [List.lookup]
  | cons p al ih =>
    obtain ⟨k', v⟩ := p
    rw [List.lookup_cons]
    cases hk : k == k' with
    | true => simp
    | false =>
      rcases List.mem_cons.mp ih with hd | htl
      · rw [hd]; simp
      · simp only [List.map_cons]
        exact List.mem_cons.mpr (Or.inr (List.mem_cons.mpr (Or.inr htl)))

theorem tweak_facts (f : String) :
    nlFree ((adjustments.lookup f).getD "") = true := by
  have hmem := lookup_getD_mem adjustments f ""
  have hall : ∀ x ∈ ("" :: adjustments.map Prod.snd), nlFree x = true := by decide
  exact hall _ hmem

theorem lookup_eq_none {al : List (String × String)} {k : String}
    (h : ∀ p ∈ al, p.1 ≠ k) : al.lookup k = none := by
  induction al with
  | nil => rfl
  | cons p al ih =>
    obtain ⟨k', v⟩ := p
    rw [List.lookup_cons]
    have hne : (k == k') = false :=
      beq_eq_false_iff_ne.mpr (fun he => absurd he.symm (h (k', v) (by simp)))
    rw [hne]
    exact ih (fun q hq => h q (by simp [hq]))

theorem generate_plan_eq {s : String} {score : Int} (h : pyInt s = some score)
    {tpl : PlanTemplate} (htpl : _plan_by_bucket (_bucket score) = some tpl) (f : String) :
    generate_plan s f = some (pyJoin "\n"
      ([(targetEmoji ++ " Target Score: " ++ pyStr score) ++
          ("  (Bucket: " ++ (_bucket score ++ ")")),
        (focusEmoji ++ " Focus: ") ++ f, weeklyFocusHeader] ++
       tpl.weekly_focus.map (fun item => "- " ++ item) ++ [""] ++ [planLabel] ++
       renderDays ((adjustments.lookup f).getD "") 1 tpl.daily)) := by
  unfold generate_plan
  simp only [h, htpl]

/-! ## Lemmas on `renderDays` and the day-structure checker -/

theorem renderDays_cons (tweak : String) (idx : Nat) (task : String) (rest : List String) :
    renderDays tweak idx (task :: rest) =
      (("Day " ++ natRepr idx ++ ": ") ++ (task ++ tweak)) :: renderDays tweak (idx + 1) rest :=
  rfl

theorem renderDays_nlFree {tweak : String} (htw : nlFree tweak = true) :
    ∀ (L : List String) (idx : Nat), (∀ t ∈ L, nlFree t = true) →
      ∀ l ∈ renderDays tweak idx L, nlFree l = true := by
  intro L
  induction L with
  | nil => intro idx _ l hl; cases hl
  | cons task rest ih =>
    intro idx hL l hl
    rw [renderDays_cons] at hl
    rcases List.mem_cons.mp hl with rfl | hmem
    · refine nlFree_append (nlFree_append (nlFree_append ?_ ?_) ?_)
        (nlFree_append ?_ htw)
      · decide
      · exact nlFree_natRepr idx
      · decide
      · exact hL task (by simp)
    · exact ih (idx + 1) (fun t ht => hL t (by simp [ht])) l hmem

theorem strStartsWith_self_append (p rest : String) : strStartsWith (p ++ rest) p = true := by
  unfold strStartsWith
  rw [String.data_append]
  exact isPre_self_append _ _

theorem daysFrom_succ_cons (count i : Nat) (l : String) (t : List String) :
    daysFrom (count + 1) i (l :: t) =
      (strStartsWith l ("Day " ++ natRepr i ++ ": ") && daysFrom count (i + 1) t) := rfl

theorem daysFrom_renderDays :
    ∀ (L : List String) (tweak : String) (i : Nat),
      daysFrom L.length i (renderDays tweak i L) = true := by
  intro L
  induction L with
  | nil => intro tweak i; rfl
  | cons task rest ih =>
    intro tweak i
    rw [List.length_cons, renderDays_cons, daysFrom_succ_cons,
      strStartsWith_self_append, ih tweak (i + 1)]
    rfl

theorem hasLabelBlock_cons (l : String) (rest : List String) :
    hasLabelBlock (l :: rest) =
      ((strContains l "7-Day Plan" && daysFrom 7 1 rest) || hasLabelBlock rest) := rfl

theorem hasLabelBlock_cons_of_tail {rest : List String} (l : String)
    (h : hasLabelBlock rest = true) : hasLabelBlock (l :: rest) = true := by
  rw [hasLabelBlock_cons, h, Bool.or_true]

theorem hasLabelBlock_append (x : List String) {z : List String}
    (h : hasLabelBlock z = true) : hasLabelBlock (x ++ z) = true := by
  induction x with
  | nil => exact h
  | cons a as ih => exact hasLabelBlock_cons_of_tail a ih

theorem dayMarkers_eq :
    dayMarkers = ["Day 1: ", "Day 2: ", "Day 3: ", "Day 4: ", "Day 5: ", "Day 6: ",
      "Day 7: "] := rfl

theorem isDayLine_intro {l m : String} (hm : m ∈ dayMarkers)
    (hs : strStartsWith l m = true) : isDayLine l = true := by
  unfold isDayLine
  rw [List.any_eq_true]
  exact ⟨m, hm, hs⟩

theorem marker_mem {i : Nat} (h1 : 1 ≤ i) (h2 : i ≤ 7) :
    ("Day " ++ natRepr i ++ ": ") ∈ dayMarkers := by
  interval_cases i <;> decide

theorem renderDays_countP {tweak : String} :
    ∀ (L : List String) (i : Nat), 1 ≤ i → i + L.length ≤ 8 →
      (renderDays tweak i L).countP isDayLine = L.length := by
  intro L
  induction L with
  | nil => intro i _ _; rfl
  | cons task rest ih =>
    intro i h1 h8
    rw [renderDays_cons, List.countP_cons]
    have hday : isDayLine (("Day " ++ natRepr i ++ ": ") ++ (task ++ tweak)) = true :=
      isDayLine_intro (marker_mem h1 (by simp at h8; omega)) (strStartsWith_self_append _ _)
    rw [hday, ih (i + 1) (by omega) (by simp at h8 ⊢; omega)]
    simp

theorem data_head_cons {a : String} {c : Char} {cs : List Char} (ha : a.data = c :: cs)
    (b : String) : ∃ cs2, (a ++ b).data = c :: cs2 :=
  ⟨cs ++ b.data, by rw [String.data_append, ha, List.cons_append]⟩

theorem isDayLine_false_of_head {l : String} {c : Char} {cs : List Char}
    (hl : l.data = c :: cs) (hc : c ≠ 'D') : isDayLine l = false := by
  have hfalse : ∀ m ∈ dayMarkers, strStartsWith l m = false := by
    intro m hm
    rw [dayMarkers_eq] at hm
    fin_cases hm <;>
      (unfold strStartsWith; rw [hl]; exact isPre_cons_false (Ne.symm hc))
  unfold isDayLine
  rw [List.any_eq_false]
  intro m hm
  rw [hfalse m hm]
  simp

/-! ## Claim theorems -/

set_option maxRecDepth 100000

/-- C2: for every score_input string that does not parse as a base-10
integer, `generate_plan` raises no exception to the caller and returns
exactly the guidance string
`"Please enter your target score as a number (e.g., 90)."` with no other
content, for every focus_area. -/
theorem C2_parse_failure_guidance (s f : String) (h : pyInt s = none) :
    generate_plan s f = some "Please enter your target score as a number (e.g., 90)." := by
  unfold generate_plan
  simp only [h]
  rfl

theorem C2_witness :
    pyInt "ninety" = none ∧
      generate_plan "ninety" "Balanced" =
        some "Please enter your target score as a number (e.g., 90)." :=
  ⟨by decide, C2_parse_failure_guidance "ninety" "Balanced" (by decide)⟩

theorem plan_table_exu {b : String} {tpl0 : PlanTemplate}
    (h0 : _plan_by_bucket b = some tpl0) (h4 : tpl0.weekly_focus.length = 4)
    (h7 : tpl0.daily.length = 7) :
    ∃! tpl : PlanTemplate, _plan_by_bucket b = some tpl ∧
      tpl.weekly_focus.length = 4 ∧ tpl.daily.length = 7 :=
  ⟨tpl0, ⟨h0, h4, h7⟩, fun y hy => (Option.some.inj (h0.symm.trans hy.1)).symm⟩

/-- C7: for every ScoreBucket value, the template lookup is total and
yields exactly one PlanTemplate whose weekly_focus sequence has exactly 4
strings and whose daily sequence has exactly 7 strings.  (The table is a
compiled-in constant of the embedding, so runtime immutability is
inherent.) -/
theorem C7_template_table (b : String)
    (hb : b ∈ (["<80", "80-89", "90-99", "100+"] : List String)) :
    ∃! tpl : PlanTemplate, _plan_by_bucket b = some tpl ∧
      tpl.weekly_focus.length = 4 ∧ tpl.daily.length = 7 := by
  fin_cases hb <;> exact plan_table_exu rfl (by decide) (by decide)

theorem C7_witness :
    ("100+" ∈ (["<80", "80-89", "90-99", "100+"] : List String)) ∧
      ∃! tpl : PlanTemplate, _plan_by_bucket "100+" = some tpl ∧
        tpl.weekly_focus.length = 4 ∧ tpl.daily.length = 7 :=
  ⟨by decide, C7_template_table "100+" (by decide)⟩

/-- C8: `generate_plan` is deterministic and side-effect free: it leaves
the world (feedback file, clock) untouched, and two invocations with
identical arguments — regardless of the world state at each call —
return identical output.  In the embedding the function body is pure by
translation: the Python body reads and writes no global state. -/
theorem C8_pure (w w' : World) (s f : String) :
    generate_plan_app w s f = (w, generate_plan s f) ∧
      (generate_plan_app w s f).2 = (generate_plan_app w' s f).2 :=
  ⟨rfl, rfl⟩

/-- C9: evaluation of the code at the failing input of the claim:
`generate_plan "95" "Reading"` yields bucket `90-99` and seven day lines
that all end with the source's mojibake adjustment
`" Emphasize Reading tasks; add 5â€“10 extra minutes to reading
activities."` (U+00E2 U+20AC U+201C where the claim has the en dash
U+2013), and none of them ends with the adjustment string of the claim. -/
theorem C9_code_divergence :
    generate_plan "95" "Reading" ≠ none ∧
      strContains ((generate_plan "95" "Reading").getD "") "Bucket: 90-99" = true ∧
      ((linesOf ((generate_plan "95" "Reading").getD "")).drop 9).length = 7 ∧
      ((linesOf ((generate_plan "95" "Reading").getD "")).drop 9).all
        (fun l => strEndsWith l
          " Emphasize Reading tasks; add 5\u00E2\u20AC\u201C10 extra minutes to reading activities.") =
        true ∧
      ((linesOf ((generate_plan "95" "Reading").getD "")).drop 9).all
        (fun l => strEndsWith l
          " Emphasize Reading tasks; add 5\u201310 extra minutes to reading activities.") =
        false := by
  decide

/-- C10: the bucketing function is monotone with respect to the tier
order `<80` < `80-89` < `90-99` < `100+`: a larger target score never
yields a lower tier. -/
theorem C10_bucket_monotone (s t : Int) (h : s ≤ t) :
    tierIdx (_bucket s) ≤ tierIdx (_bucket t) := by
  have e1 : tierIdx "100+" = 3 := rfl
  have e2 : tierIdx "90-99" = 2 := rfl
  have e3 : tierIdx "80-89" = 1 := rfl
  have e4 : tierIdx "<80" = 0 := rfl
  by_cases hs1 : 100 ≤ s
  · rw [bucket_of_ge_100 hs1, bucket_of_ge_100 (by omega)]
  · by_cases hs2 : 90 ≤ s
    · rw [bucket_of_90_99 hs2 (by omega)]
      by_cases ht1 : 100 ≤ t
      · rw [bucket_of_ge_100 ht1, e1, e2]; omega
      · rw [bucket_of_90_99 (by omega) (by omega)]
    · by_cases hs3 : 80 ≤ s
      · rw [bucket_of_80_89 hs3 (by omega)]
        by_cases ht1 : 100 ≤ t
        · rw [bucket_of_ge_100 ht1, e1, e3]; omega
        · by_cases ht2 : 90 ≤ t
          · rw [bucket_of_90_99 ht2 (by omega), e2, e3]; omega
          · rw [bucket_of_80_89 (by omega) (by omega)]
      · rw [bucket_of_lt_80 (by omega), e4]
        exact Nat.zero_le _

theorem C10_witness :
    ((70 : Int) ≤ 100) ∧ tierIdx (_bucket 70) ≤ tierIdx (_bucket 100) :=
  ⟨by decide, C10_bucket_monotone 70 100 (by decide)⟩

/-- C4 counterexample: the first line of the self-test report is neither
exactly `"OVERALL: PASS"` nor exactly `"OVERALL: CHECK NEEDED"` (the code
appends an emoji marker, mojibaked in the source), and the report has 9
lines rather than the 6 that "first line plus exactly one line per
check" would give: the Functionality check logs one line per tested
score. -/
theorem C4_counterexample :
    run_self_tests ≠ none ∧
      (linesOf ((run_self_tests).getD "")).headD "" ≠ "OVERALL: PASS" ∧
      (linesOf ((run_self_tests).getD "")).headD "" ≠ "OVERALL: CHECK NEEDED" ∧
      (linesOf ((run_self_tests).getD "")).length = 9 := by
  decide

/-- C4 (amended): the self-test report's first line begins with
`"OVERALL: PASS"` (it is `"OVERALL: PASS "` followed by the source's
mojibake check mark), and is followed by four Functionality lines (one
per tested score 75, 85, 92, 104) and then one line for each of
Personalization, Robustness, Consistency and Usability, in that order,
each stating PASS/FAIL; on the unmodified implementation every line
states PASS. -/
theorem C4_amended_report :
    run_self_tests ≠ none ∧
      linesOf ((run_self_tests).getD "") =
        ["OVERALL: PASS " ++ passMark,
         "[Functionality] score=75: PASS",
         "[Functionality] score=85: PASS",
         "[Functionality] score=92: PASS",
         "[Functionality] score=104: PASS",
         "[Personalization] different buckets detected: PASS",
         "[Robustness] non-numeric input message: PASS",
         "[Consistency] 7 days present: PASS",
         "[Usability] headers included: PASS"] ∧
      strStartsWith ((linesOf ((run_self_tests).getD "")).headD "") "OVERALL: PASS" = true := by
  decide

theorem gp_contains_bucket {s : Int} {tpl : PlanTemplate}
    (htpl : _plan_by_bucket (_bucket s) = some tpl) (f needle : String)
    (hn : isSub needle.data ("  (Bucket: " ++ (_bucket s ++ ")")).data = true) :
    ∃ out, generate_plan (pyStr s) f = some out ∧ strContains out needle = true := by
  refine ⟨_, generate_plan_eq (pyInt_pyStr s) htpl f, ?_⟩
  have hl : ((targetEmoji ++ " Target Score: " ++ pyStr s) ++
        ("  (Bucket: " ++ (_bucket s ++ ")"))) ∈
      ([(targetEmoji ++ " Target Score: " ++ pyStr s) ++ ("  (Bucket: " ++ (_bucket s ++ ")")),
        (focusEmoji ++ " Focus: ") ++ f, weeklyFocusHeader] ++
       tpl.weekly_focus.map (fun item => "- " ++ item) ++ [""] ++ [planLabel] ++
       renderDays ((adjustments.lookup f).getD "") 1 tpl.daily) := by
    simp
  refine strContains_pyJoin_of_mem "\n" hl ?_
  unfold strContains
  rw [String.data_append]
  exact isSub_append_left _ hn

/-- C1: for every integer score s, `generate_plan` applied to the decimal
rendering of s (with the default focus `"Balanced"`) succeeds, and its
output contains `"Bucket: 100+"` if s ≥ 100, `"Bucket: 90-99"` if
90 ≤ s ≤ 99, `"Bucket: 80-89"` if 80 ≤ s ≤ 89, and `"Bucket: <80"` if
s < 80 — including arbitrarily negative or huge integers, with no bounds
validation. -/
theorem C1_bucket_markers :
    (∀ s : Int, 100 ≤ s → ∃ out, generate_plan (pyStr s) "Balanced" = some out ∧
        strContains out "Bucket: 100+" = true) ∧
    (∀ s : Int, 90 ≤ s → s ≤ 99 → ∃ out, generate_plan (pyStr s) "Balanced" = some out ∧
        strContains out "Bucket: 90-99" = true) ∧
    (∀ s : Int, 80 ≤ s → s ≤ 89 → ∃ out, generate_plan (pyStr s) "Balanced" = some out ∧
        strContains out "Bucket: 80-89" = true) ∧
    (∀ s : Int, s < 80 → ∃ out, generate_plan (pyStr s) "Balanced" = some out ∧
        strContains out "Bucket: <80" = true) := by
  refine ⟨fun s h => ?_, fun s h1 h2 => ?_, fun s h1 h2 => ?_, fun s h => ?_⟩
  · obtain ⟨tpl, htpl, -, -, -, -⟩ := plan_by_bucket_facts s
    exact gp_contains_bucket htpl "Balanced" _ (by rw [bucket_of_ge_100 h]; decide)
  · obtain ⟨tpl, htpl, -, -, -, -⟩ := plan_by_bucket_facts s
    exact gp_contains_bucket htpl "Balanced" _ (by rw [bucket_of_90_99 h1 h2]; decide)
  · obtain ⟨tpl, htpl, -, -, -, -⟩ := plan_by_bucket_facts s
    exact gp_contains_bucket htpl "Balanced" _ (by rw [bucket_of_80_89 h1 h2]; decide)
  · obtain ⟨tpl, htpl, -, -, -, -⟩ := plan_by_bucket_facts s
    exact gp_contains_bucket htpl "Balanced" _ (by rw [bucket_of_lt_80 h]; decide)

theorem C1_witness :
    (∃ out, generate_plan (pyStr 104) "Balanced" = some out ∧
        strContains out "Bucket: 100+" = true) ∧
    (∃ out, generate_plan (pyStr 95) "Balanced" = some out ∧
        strContains out "Bucket: 90-99" = true) ∧
    (∃ out, generate_plan (pyStr 85) "Balanced" = some out ∧
        strContains out "Bucket: 80-89" = true) ∧
    (∃ out, generate_plan (pyStr 75) "Balanced" = some out ∧
        strContains out "Bucket: <80" = true) :=
  ⟨C1_bucket_markers.1 104 (by decide), C1_bucket_markers.2.1 95 (by decide) (by decide),
   C1_bucket_markers.2.2.1 85 (by decide) (by decide), C1_bucket_markers.2.2.2 75 (by decide)⟩

theorem str_append_empty (s : String) : s ++ "" = s := by
  cases s with
  | mk data =>
    show String.mk (data ++ []) = String.mk data
    rw [List.append_nil]

theorem renderDays_getD {tweak : String} :
    ∀ (L : List String) (i k : Nat), k < L.length →
      (renderDays tweak i L).getD k "" =
        ("Day " ++ natRepr (i + k) ++ ": ") ++ (L.getD k "" ++ tweak) := by
  intro L
  induction L with
  | nil => intro i k hk; simp at hk
  | cons task rest ih =>
    intro i k hk
    cases k with
    | zero => rw [renderDays_cons]; simp
    | succ k' =>
      rw [renderDays_cons]
      have hrw := ih (i + 1) k' (by simpa using hk)
      simp only [List.getD_cons_succ]
      rw [hrw]
      have harith : i + 1 + k' = i + (k' + 1) := by omega
      rw [harith]

/-- C6: for every focus_area string outside the known set, `generate_plan`
on an integer-parseable input raises no error and appends the empty
adjustment: every day line is the day marker followed by the template
task text with nothing appended. -/
theorem C6_unknown_focus (f : String)
    (hf : f ∉ (["Balanced", "Reading", "Listening", "Speaking", "Writing",
      "Vocabulary"] : List String))
    (s : String) (score : Int) (h : pyInt s = some score) :
    (adjustments.lookup f).getD "" = "" ∧
    ∃ tpl, _plan_by_bucket (_bucket score) = some tpl ∧
      generate_plan s f = some (pyJoin "\n"
        ([(targetEmoji ++ " Target Score: " ++ pyStr score) ++
            ("  (Bucket: " ++ (_bucket score ++ ")")),
          (focusEmoji ++ " Focus: ") ++ f, weeklyFocusHeader] ++
         tpl.weekly_focus.map (fun item => "- " ++ item) ++ [""] ++ [planLabel] ++
         renderDays "" 1 tpl.daily)) ∧
      ∀ k, k < tpl.daily.length →
        (renderDays "" 1 tpl.daily).getD k "" =
          ("Day " ++ natRepr (1 + k) ++ ": ") ++ tpl.daily.getD k "" := by
  have hnone : adjustments.lookup f = none := by
    apply lookup_eq_none
    intro p hp
    fin_cases hp <;>
      · intro he
        exact hf (he ▸ (by decide))
  have htweak : (adjustments.lookup f).getD "" = "" := by rw [hnone]; rfl
  obtain ⟨tpl, htpl, h4, h7, hwn, hdn⟩ := plan_by_bucket_facts score
  refine ⟨htweak, tpl, htpl, ?_, ?_⟩
  · have hgen := generate_plan_eq h htpl f
    rw [htweak] at hgen
    exact hgen
  · intro k hk
    rw [renderDays_getD tpl.daily 1 k hk, str_append_empty]

theorem C6_witness :
    ("Grammar" ∉ (["Balanced", "Reading", "Listening", "Speaking", "Writing",
        "Vocabulary"] : List String)) ∧
    pyInt "85" = some 85 ∧
    ((adjustments.lookup "Grammar").getD "" = "" ∧
      ∃ tpl, _plan_by_bucket (_bucket 85) = some tpl ∧
        generate_plan "85" "Grammar" = some (pyJoin "\n"
          ([(targetEmoji ++ " Target Score: " ++ pyStr 85) ++
              ("  (Bucket: " ++ (_bucket 85 ++ ")")),
            (focusEmoji ++ " Focus: ") ++ "Grammar", weeklyFocusHeader] ++
           tpl.weekly_focus.map (fun item => "- " ++ item) ++ [""] ++ [planLabel] ++
           renderDays "" 1 tpl.daily)) ∧
        ∀ k, k < tpl.daily.length →
          (renderDays "" 1 tpl.daily).getD k "" =
            ("Day " ++ natRepr (1 + k) ++ ": ") ++ tpl.daily.getD k "") :=
  ⟨by decide, by decide, C6_unknown_focus "Grammar" (by decide) "85" 85 (by decide)⟩

theorem nlFree_bucket (score : Int) : nlFree (_bucket score) = true := by
  rcases bucket_cases score with hb | hb | hb | hb <;> rw [hb] <;> decide

/-- C3 counterexample: with the focus area `"X\nDay 1: evil"` (which the
code echoes verbatim into the output) the plan text contains an eighth
line beginning with a `Day N: ` marker before the `7-Day Plan` label, so
the day-structure property of the claim fails. -/
theorem C3_counterexample :
    ¬ ∃ out, generate_plan "90" "X\nDay 1: evil" = some out ∧ dayStructureOk out = true := by
  rintro ⟨out, h1, h2⟩
  have hval : generate_plan "90" "X\nDay 1: evil" =
      some ((generate_plan "90" "X\nDay 1: evil").getD "") := by decide
  rw [hval] at h1
  have hout : out = (generate_plan "90" "X\nDay 1: evil").getD "" := (Option.some.inj h1).symm
  rw [hout] at h2
  have hfalse : dayStructureOk ((generate_plan "90" "X\nDay 1: evil").getD "") = false := by
    decide
  rw [h2] at hfalse
  cases hfalse

/-- C3 (amended): for every integer-parseable score_input and every
focus_area that contains no newline character, the output of
`generate_plan` contains exactly 7 lines beginning `Day N: ` for
N = 1..7, in increasing order of N, placed immediately after the line
carrying the `7-Day Plan` section label. -/
theorem C3_day_lines (s f : String) (score : Int) (h : pyInt s = some score)
    (hf : nlFree f = true) :
    ∃ out, generate_plan s f = some out ∧ dayStructureOk out = true := by
  obtain ⟨tpl, htpl, h4, h7, hwn, hdn⟩ := plan_by_bucket_facts score
  refine ⟨_, generate_plan_eq h htpl f, ?_⟩
  have hlines : linesOf (pyJoin "\n"
      ([(targetEmoji ++ " Target Score: " ++ pyStr score) ++
          ("  (Bucket: " ++ (_bucket score ++ ")")),
        (focusEmoji ++ " Focus: ") ++ f, weeklyFocusHeader] ++
       tpl.weekly_focus.map (fun item => "- " ++ item) ++ [""] ++ [planLabel] ++
       renderDays ((adjustments.lookup f).getD "") 1 tpl.daily)) =
      ([(targetEmoji ++ " Target Score: " ++ pyStr score) ++
          ("  (Bucket: " ++ (_bucket score ++ ")")),
        (focusEmoji ++ " Focus: ") ++ f, weeklyFocusHeader] ++
       tpl.weekly_focus.map (fun item => "- " ++ item) ++ [""] ++ [planLabel] ++
       renderDays ((adjustments.lookup f).getD "") 1 tpl.daily) := by
    apply linesOf_pyJoin (by simp)
    intro l hl
    simp only [List.append_assoc, List.cons_append, List.nil_append, List.mem_cons,
      List.mem_append, List.mem_singleton, List.mem_map] at hl
    rcases hl with rfl | rfl | rfl | ⟨item, hitem, rfl⟩ | rfl | rfl | hday
    · exact nlFree_append
        (nlFree_append (nlFree_append (by decide) (by decide)) (nlFree_pyStr score))
        (nlFree_append (by decide) (nlFree_append (nlFree_bucket score) (by decide)))
    · exact nlFree_append (by decide) hf
    · decide
    · exact nlFree_append (by decide) (hwn item hitem)
    · decide
    · decide
    · exact renderDays_nlFree (tweak_facts f) tpl.daily 1 hdn l hday
  unfold dayStructureOk
  rw [hlines]
  have hblock : hasLabelBlock
      ([(targetEmoji ++ " Target Score: " ++ pyStr score) ++
          ("  (Bucket: " ++ (_bucket score ++ ")")),
        (focusEmoji ++ " Focus: ") ++ f, weeklyFocusHeader] ++
       tpl.weekly_focus.map (fun item => "- " ++ item) ++ [""] ++ [planLabel] ++
       renderDays ((adjustments.lookup f).getD "") 1 tpl.daily) = true := by
    rw [show ([(targetEmoji ++ " Target Score: " ++ pyStr score) ++
          ("  (Bucket: " ++ (_bucket score ++ ")")),
        (focusEmoji ++ " Focus: ") ++ f, weeklyFocusHeader] ++
       tpl.weekly_focus.map (fun item => "- " ++ item) ++ [""] ++ [planLabel] ++
       renderDays ((adjustments.lookup f).getD "") 1 tpl.daily) =
      (([(targetEmoji ++ " Target Score: " ++ pyStr score) ++
          ("  (Bucket: " ++ (_bucket score ++ ")")),
        (focusEmoji ++ " Focus: ") ++ f, weeklyFocusHeader] ++
       tpl.weekly_focus.map (fun item => "- " ++ item) ++ [""]) ++
       ([planLabel] ++ renderDays ((adjustments.lookup f).getD "") 1 tpl.daily))
      from by simp [List.append_assoc]]
    apply hasLabelBlock_append
    rw [List.singleton_append, hasLabelBlock_cons]
    have hdf : daysFrom 7 1 (renderDays ((adjustments.lookup f).getD "") 1 tpl.daily) = true := by
      have hd := daysFrom_renderDays tpl.daily ((adjustments.lookup f).getD "") 1
      rw [h7] at hd
      exact hd
    rw [hdf, show strContains planLabel "7-Day Plan" = true from by decide]
    rfl
  have hc1 : isDayLine ((targetEmoji ++ " Target Score: " ++ pyStr score) ++
      ("  (Bucket: " ++ (_bucket score ++ ")"))) = false := by
    have htE : targetEmoji.data = '\u00F0' :: "\u0178\u017D\u00AF".data := rfl
    obtain ⟨cs1, hA⟩ := data_head_cons htE " Target Score: "
    obtain ⟨cs2, hB⟩ := data_head_cons hA (pyStr score)
    obtain ⟨cs3, hC⟩ := data_head_cons hB ("  (Bucket: " ++ (_bucket score ++ ")"))
    exact isDayLine_false_of_head hC (by decide)
  have hc2 : isDayLine ((focusEmoji ++ " Focus: ") ++ f) = false := by
    have hfE : focusEmoji.data = '\u00F0' :: "\u0178\u00A7\u00AD".data := rfl
    obtain ⟨cs1, hA⟩ := data_head_cons hfE " Focus: "
    obtain ⟨cs2, hB⟩ := data_head_cons hA f
    exact isDayLine_false_of_head hB (by decide)
  have hcw : (tpl.weekly_focus.map (fun item => "- " ++ item)).countP isDayLine = 0 := by
    rw [List.countP_eq_zero]
    intro l hl
    simp only [List.mem_map] at hl
    obtain ⟨item, -, rfl⟩ := hl
    have hdash : ("- " : String).data = '-' :: " ".data := rfl
    obtain ⟨cs1, hA⟩ := data_head_cons hdash item
    simp [isDayLine_false_of_head hA (by decide)]
  have hcount : ([(targetEmoji ++ " Target Score: " ++ pyStr score) ++
          ("  (Bucket: " ++ (_bucket score ++ ")")),
        (focusEmoji ++ " Focus: ") ++ f, weeklyFocusHeader] ++
       tpl.weekly_focus.map (fun item => "- " ++ item) ++ [""] ++ [planLabel] ++
       renderDays ((adjustments.lookup f).getD "") 1 tpl.daily).countP isDayLine = 7 := by
    rw [List.countP_append, List.countP_append, List.countP_append, List.countP_append]
    have hdays : (renderDays ((adjustments.lookup f).getD "") 1 tpl.daily).countP
        isDayLine = 7 := by
      rw [renderDays_countP tpl.daily 1 le_rfl (by omega), h7]
    rw [hdays]
    rw [show ([(targetEmoji ++ " Target Score: " ++ pyStr score) ++
          ("  (Bucket: " ++ (_bucket score ++ ")")),
        (focusEmoji ++ " Focus: ") ++ f, weeklyFocusHeader]).countP isDayLine = 0 from by
      simp [List.countP_cons, hc1, hc2, show isDayLine weeklyFocusHeader = false from by decide,
        List.countP_nil]]
    rw [hcw]
    rw [show ([""] : List String).countP isDayLine = 0 from by decide]
    rw [show ([planLabel] : List String).countP isDayLine = 0 from by decide]
  rw [hblock, hcount]
  rfl

theorem C3_witness :
    pyInt "90" = some 90 ∧ nlFree "Balanced" = true ∧
      ∃ out, generate_plan "90" "Balanced" = some out ∧ dayStructureOk out = true :=
  ⟨by decide, by decide, C3_day_lines "90" "Balanced" 90 (by decide) (by decide)⟩

theorem natRepr_one_digit {n : Nat} (h : n < 10) : (natRepr n).data = [Nat.digitChar n] := by
  by_cases h0 : n = 0
  · subst h0; rfl
  · rw [natRepr_data h0]
    have hdig : Nat.digits 10 n = [n] := by
      rw [Nat.digits_def' (by norm_num : (1:Nat) < 10) (Nat.pos_of_ne_zero h0),
        Nat.mod_eq_of_lt h, Nat.div_eq_of_lt h, Nat.digits_zero]
    rw [hdig]
    rfl

theorem natRepr_length_eq {n k : Nat} (hlo : 10 ^ k ≤ n) (hhi : n < 10 ^ (k + 1)) :
    (natRepr n).data.length = k + 1 := by
  have h1 : 1 ≤ 10 ^ k := Nat.one_le_pow k 10 (by norm_num)
  have h0 : n ≠ 0 := by omega
  rw [natRepr_data h0, List.length_map, List.length_reverse,
    Nat.digits_len 10 n (by norm_num) h0,
    Nat.log_eq_of_pow_le_of_lt_pow hlo hhi]

theorem list_two_of_len {α : Type} {l : List α} (h : l.length = 2) : ∃ a b, l = [a, b] := by
  obtain ⟨a, l1, rfl⟩ := List.exists_of_length_succ l h
  obtain ⟨b, l2, rfl⟩ := List.exists_of_length_succ l1 (by simpa using h)
  have hnil : l2 = [] := by simpa using h
  exact ⟨a, b, by rw [hnil]⟩

theorem list_three_of_len {α : Type} {l : List α} (h : l.length = 3) :
    ∃ a b c, l = [a, b, c] := by
  obtain ⟨a, l1, rfl⟩ := List.exists_of_length_succ l h
  obtain ⟨b, c, hl⟩ := list_two_of_len (by simpa using h)
  exact ⟨a, b, c, by rw [hl]⟩

theorem list_four_of_len {α : Type} {l : List α} (h : l.length = 4) :
    ∃ a b c d, l = [a, b, c, d] := by
  obtain ⟨a, l1, rfl⟩ := List.exists_of_length_succ l h
  obtain ⟨b, c, d, hl⟩ := list_three_of_len (by simpa using h)
  exact ⟨a, b, c, d, by rw [hl]⟩

theorem pad2_data {n : Nat} (h : n ≤ 99) :
    ∃ c1 c2, (pad2 n).data = [c1, c2] ∧ c1.isDigit = true ∧ c2.isDigit = true := by
  by_cases h10 : n < 10
  · refine ⟨'0', Nat.digitChar n, ?_, by decide, digitChar_isDigit h10⟩
    unfold pad2
    rw [if_pos h10, String.data_append, natRepr_one_digit h10]
    rfl
  · have hlen : (natRepr n).data.length = 2 :=
      natRepr_length_eq (show 10 ^ 1 ≤ n by norm_num; omega)
        (show n < 10 ^ (1 + 1) by norm_num; omega)
    obtain ⟨c1, c2, hl⟩ := list_two_of_len hlen
    refine ⟨c1, c2, ?_, ?_, ?_⟩
    · unfold pad2
      rw [if_neg h10]
      exact hl
    · exact natRepr_chars c1 (by rw [hl]; simp)
    · exact natRepr_chars c2 (by rw [hl]; simp)

theorem pad4_data {n : Nat} (h : n ≤ 9999) :
    ∃ c1 c2 c3 c4, (pad4 n).data = [c1, c2, c3, c4] ∧ c1.isDigit = true ∧
      c2.isDigit = true ∧ c3.isDigit = true ∧ c4.isDigit = true := by
  by_cases h10 : n < 10
  · refine ⟨'0', '0', '0', Nat.digitChar n, ?_, by decide, by decide, by decide,
      digitChar_isDigit h10⟩
    unfold pad4
    rw [if_pos h10, String.data_append, natRepr_one_digit h10]
    rfl
  · by_cases h100 : n < 100
    · have hlen : (natRepr n).data.length = 2 :=
        natRepr_length_eq (show 10 ^ 1 ≤ n by norm_num; omega)
          (show n < 10 ^ (1 + 1) by norm_num; omega)
      obtain ⟨c1, c2, hl⟩ := list_two_of_len hlen
      refine ⟨'0', '0', c1, c2, ?_, by decide, by decide,
        natRepr_chars c1 (by rw [hl]; simp), natRepr_chars c2 (by rw [hl]; simp)⟩
      unfold pad4
      rw [if_neg h10, if_pos h100, String.data_append, hl]
      rfl
    · by_cases h1000 : n < 1000
      · have hlen : (natRepr n).data.length = 3 :=
          natRepr_length_eq (show 10 ^ 2 ≤ n by norm_num; omega)
            (show n < 10 ^ (2 + 1) by norm_num; omega)
        obtain ⟨c1, c2, c3, hl⟩ := list_three_of_len hlen
        refine ⟨'0', c1, c2, c3, ?_, by decide,
          natRepr_chars c1 (by rw [hl]; simp), natRepr_chars c2 (by rw [hl]; simp),
          natRepr_chars c3 (by rw [hl]; simp)⟩
        unfold pad4
        rw [if_neg h10, if_neg h100, if_pos h1000, String.data_append, hl]
        rfl
      · have hlen : (natRepr n).data.length = 4 :=
          natRepr_length_eq (show 10 ^ 3 ≤ n by norm_num; omega)
            (show n < 10 ^ (3 + 1) by norm_num; omega)
        obtain ⟨c1, c2, c3, c4, hl⟩ := list_four_of_len hlen
        refine ⟨c1, c2, c3, c4, ?_,
          natRepr_chars c1 (by rw [hl]; simp), natRepr_chars c2 (by rw [hl]; simp),
          natRepr_chars c3 (by rw [hl]; simp), natRepr_chars c4 (by rw [hl]; simp)⟩
        unfold pad4
        rw [if_neg h10, if_neg h100, if_neg h1000]
        exact hl

theorem isoformat_shape {d : PyDateTime} (hv : d.valid) :
    isIso8601Seconds (isoformatSeconds d) = true := by
  obtain ⟨h1, h2, h3, h4, h5, h6, h7, h8, h9⟩ := hv
  obtain ⟨y1, y2, y3, y4, hy, hy1, hy2, hy3, hy4⟩ := pad4_data (show d.year ≤ 9999 from h2)
  obtain ⟨a1, a2, ha, ha1, ha2⟩ := pad2_data (show d.month ≤ 99 by omega)
  obtain ⟨b1, b2, hb, hb1, hb2⟩ := pad2_data (show d.day ≤ 99 by omega)
  obtain ⟨c1, c2, hc, hc1, hc2⟩ := pad2_data (show d.hour ≤ 99 by omega)
  obtain ⟨e1, e2, he, he1, he2⟩ := pad2_data (show d.minute ≤ 99 by omega)
  obtain ⟨g1, g2, hg, hg1, hg2⟩ := pad2_data (show d.second ≤ 99 by omega)
  have hdash : ("-" : String).data = ['-'] := rfl
  have hT : ("T" : String).data = ['T'] := rfl
  have hcolon : (":" : String).data = [':'] := rfl
  unfold isoformatSeconds isIso8601Seconds
  simp only [String.data_append, hy, ha, hb, hc, he, hg, hdash, hT, hcolon,
    List.cons_append, List.nil_append, List.append_assoc, List.singleton_append]
  simp only [List.all_cons, List.all_nil, hy1, hy2, hy3, hy4, ha1, ha2, hb1, hb2,
    hc1, hc2, he1, he2, hg1, hg2, Bool.and_self, Bool.and_true]

/-- C5: `save_feedback` builds the record cells in the fixed column order
timestamp, target_score_input, helpful_rating_1to5, clarity_rating_1to5,
comments, with the comments whitespace-stripped, the score string and
both ratings rendered verbatim, and a second-precision ISO-8601
timestamp; on a fresh store the resulting file is exactly the header row
followed by the one data row, and on later calls the data row is
appended to the existing contents with no repeated header. -/
theorem C5_save_feedback (now : PyDateTime) (hv : now.valid) (score : String)
    (helpful clarity : Int) (comments prior : String) :
    save_feedback now score helpful clarity comments none =
      (some (feedbackHeader ++ "\n" ++
        csvRow (feedbackCells now score helpful clarity comments)),
       "Thanks! Your feedback was saved.") ∧
    save_feedback now score helpful clarity comments (some prior) =
      (some (prior ++ csvRow (feedbackCells now score helpful clarity comments)),
       "Thanks! Your feedback was saved.") ∧
    feedbackCells now score helpful clarity comments =
      [isoformatSeconds now, score, pyStr helpful, pyStr clarity,
       String.mk (stripChars comments.data)] ∧
    isIso8601Seconds (isoformatSeconds now) = true :=
  ⟨rfl, rfl, rfl, isoformat_shape hv⟩

theorem C5_witness :
    PyDateTime.valid ⟨2026, 10, 12, 9, 5, 3⟩ ∧
      (save_feedback ⟨2026, 10, 12, 9, 5, 3⟩ "90" 5 4 " good " none =
        (some (feedbackHeader ++ "\n" ++
          csvRow (feedbackCells ⟨2026, 10, 12, 9, 5, 3⟩ "90" 5 4 " good ")),
         "Thanks! Your feedback was saved.") ∧
       save_feedback ⟨2026, 10, 12, 9, 5, 3⟩ "90" 5 4 " good " (some "prior") =
        (some ("prior" ++ csvRow (feedbackCells ⟨2026, 10, 12, 9, 5, 3⟩ "90" 5 4 " good ")),
         "Thanks! Your feedback was saved.") ∧
       feedbackCells ⟨2026, 10, 12, 9, 5, 3⟩ "90" 5 4 " good " =
        [isoformatSeconds ⟨2026, 10, 12, 9, 5, 3⟩, "90", pyStr 5, pyStr 4,
         String.mk (stripChars (" good " : String).data)] ∧
       isIso8601Seconds (isoformatSeconds ⟨2026, 10, 12, 9, 5, 3⟩) = true) :=
  ⟨by unfold PyDateTime.valid; decide,
   C5_save_feedback ⟨2026, 10, 12, 9, 5, 3⟩ (by unfold PyDateTime.valid; decide)
     "90" 5 4 " good " "prior"⟩

end Toefl
